import Mathlib

set_option linter.unusedVariables false

/-!
Verification development for the technician-booking frontend.

The repository is a TypeScript single-page application.  This file gives a
shallow embedding of the logic the specification talks about:

* the booking status deriver (`getStatusInfo` in
  `src/components/ChatInterface/BookingEntry.tsx` and `getStatusChip` in
  `src/App.tsx`),
* the API client's error normalisation (`handleAxiosError`, the five CRUD
  operations and the request interceptors, in `src/services/bookingApi.ts`
  and the alternate client variant embedded in `src/theme/index.ts`),
* the chat input handling (`handleSend`, `determineMessageType`,
  `parseBookingsFromMessage` in `src/components/ChatInterface/index.tsx`).

JavaScript builtins used by that code (string methods, `Date` parsing and
`toISOString`) are modelled by executable Lean functions on the fragment of
behaviour the code exercises; each carries a comment saying which builtin it
models.  Machine time is modelled as an integer count of milliseconds.
-/

namespace JsStr

/-- Models the whitespace test of ECMAScript TrimString on the code points
the application can encounter (ASCII whitespace plus NBSP). -/
def isJsWhitespace (c : Char) : Bool :=
  c = ' ' || c = '\t' || c = '\n' || c = '\r' ||
  c = Char.ofNat 11 || c = Char.ofNat 12 || c = Char.ofNat 160

/-- Models JS `String.prototype.trim`: strip whitespace from both ends. -/
def trim (s : String) : String :=
  ⟨((s.toList.dropWhile isJsWhitespace).reverse.dropWhile isJsWhitespace).reverse⟩

/-- Helper for `split`: accumulate the current chunk (reversed) while
scanning the character list. -/
def splitAux (sep : Char) : List Char → List Char → List (List Char)
  | [], acc => [acc.reverse]
  | c :: cs, acc =>
      if c = sep then acc.reverse :: splitAux sep cs []
      else splitAux sep cs (c :: acc)

/-- Models JS `String.prototype.split` with a one-character separator. -/
def split (sep : Char) (s : String) : List String :=
  (splitAux sep s.toList []).map (fun l => ⟨l⟩)

/-- Models JS `String.prototype.startsWith`. -/
def startsWith (s pat : String) : Bool :=
  pat.toList.isPrefixOf s.toList

/-- Models JS `String.prototype.includes`: substring containment. -/
def includes (s sub : String) : Bool :=
  (List.range (s.toList.length + 1)).any fun i =>
    sub.toList.isPrefixOf (s.toList.drop i)

/-- Models JS `String.prototype.substring` with only a start index. -/
def substringFrom (n : Nat) (s : String) : String :=
  ⟨s.toList.drop n⟩

/-- Models JS `Array.prototype.join` on an array of strings. -/
def joinWith (sep : String) : List String → String
  | [] => ""
  | [x] => x
  | x :: y :: xs => x ++ sep ++ joinWith sep (y :: xs)

end JsStr

/-- Label and MUI chip colour returned by the status deriver
(`StatusInfo` in `BookingEntry.tsx`; the theme-dependent `bgColor` field is
presentational and omitted). -/
structure StatusInfo where
  label : String
  color : String
deriving DecidableEq, Repr

/-- Embeds `getStatusInfo` from
`src/components/ChatInterface/BookingEntry.tsx` (lines 38-62).  `now`,
`startTime` and `endTime` are the millisecond values of the three `Date`
objects the code compares. -/
def getStatusInfo (now startTime endTime : Int) : StatusInfo :=
  if now < startTime then { label := "Upcoming", color := "info" }
  else if now > endTime then { label := "Completed", color := "success" }
  else { label := "In Progress", color := "warning" }

/-- Embeds the chip label chosen by `getStatusChip` in `src/App.tsx`
(lines 432-477); the function renders a chip whose label is selected by the
same three-way comparison as `getStatusInfo`. -/
def getStatusChipLabel (now startTime endTime : Int) : String :=
  if now < startTime then "Upcoming"
  else if now > endTime then "Completed"
  else "In Progress"

/-- C1: the status deriver returns exactly one of the three labels by the
rule `now < start → Upcoming`, `now > end → Completed`, otherwise
`In Progress`; the cases are mutually exclusive and exhaustive, both
derivers agree, and at `start = end = now` the result is `In Progress`. -/
theorem statusDeriver_three_way_classification (now startTime endTime : Int) :
    ((getStatusInfo now startTime endTime).label = "Upcoming" ↔ now < startTime) ∧
    ((getStatusInfo now startTime endTime).label = "Completed" ↔
      startTime ≤ now ∧ endTime < now) ∧
    ((getStatusInfo now startTime endTime).label = "In Progress" ↔
      startTime ≤ now ∧ now ≤ endTime) ∧
    getStatusChipLabel now startTime endTime = (getStatusInfo now startTime endTime).label ∧
    (getStatusInfo now now now).label = "In Progress" := by
  unfold getStatusInfo getStatusChipLabel
  split_ifs with h1 h2 <;> simp_all

/-- Response body shapes distinguished by `handleAxiosError`
(`src/services/bookingApi.ts` lines 115-123): a string body or a JSON
object body, the latter modelled as its string-valued fields. -/
inductive RespData
  | strData (s : String)
  | objData (fields : List (String × String))
deriving DecidableEq, Repr

/-- JS truthiness of `axiosErr.response.data`: the empty string is falsy,
every object is truthy. -/
def RespData.truthy : RespData → Bool
  | .strData s => s != ""
  | .objData _ => true

/-- Models `JSON.stringify` on the object bodies of this model. -/
def jsonStringify (fields : List (String × String)) : String :=
  "\x7b" ++
    JsStr.joinWith ","
      (fields.map (fun p => "\"" ++ p.1 ++ "\":\"" ++ p.2 ++ "\"")) ++
    "\x7d"

/-- The `response` component of an axios error: HTTP status plus optional
body (`none` models a null/undefined body). -/
structure AxiosResponseModel where
  status : Nat
  data : Option RespData
deriving DecidableEq, Repr

/-- An axios transport error: optional HTTP response (absent on network
failure or timeout) and the transport error message. -/
structure AxiosErrorModel where
  response : Option AxiosResponseModel
  message : String
deriving DecidableEq, Repr

/-- The value caught by the operations' `catch` blocks, as discriminated by
`axios.isAxiosError` at line 110 of `bookingApi.ts`. -/
inductive ErrorInput
  | axios (e : AxiosErrorModel)
  | nonAxios
deriving DecidableEq, Repr

/-- Embeds the `BookingApiError` class (`bookingApi.ts` lines 94-104). -/
structure BookingApiError where
  name : String
  message : String
  status : Option Nat
  originalError : Option ErrorInput
deriving DecidableEq, Repr

/-- The `detail` string computed by `handleAxiosError`
(`bookingApi.ts` lines 113-126): body string, else the body's `detail`
field, else the stringified body; without a truthy body, the transport
message when non-empty, else the default text. -/
def detailOf (e : AxiosErrorModel) : String :=
  let fallback :=
    if e.message != "" then e.message
    else "An unexpected error occurred. Please try again later."
  match e.response with
  | none => fallback
  | some r =>
    match r.data with
    | none => fallback
    | some d =>
      if d.truthy then
        match d with
        | .strData s => s
        | .objData fields =>
          match fields.lookup "detail" with
          | some v => v
          | none => jsonStringify fields
      else fallback

/-- Embeds `handleAxiosError` (`bookingApi.ts` lines 109-131; the variant in
`theme/index.ts` lines 270-291 is byte-for-byte the same logic).  The
source's return type is `never`: it throws on both branches, so the embedding
returns the thrown `BookingApiError` as a value. -/
def handleAxiosError : ErrorInput → BookingApiError
  | .axios e =>
    { name := "BookingApiError"
      message := "API request failed: " ++ detailOf e
      status := e.response.map (fun r => r.status)
      originalError := some (.axios e) }
  | .nonAxios =>
    { name := "BookingApiError"
      message := "An unexpected error occurred."
      status := none
      originalError := some .nonAxios }

/-- Booking record as declared in `bookingApi.ts` lines 55-62. -/
structure Booking where
  id : String
  customer_name : String
  technician_name : String
  profession : String
  start_time : String
  end_time : String
deriving DecidableEq, Repr

/-- Payload of `createBooking` (`bookingApi.ts` lines 67-72). -/
structure BookingCreatePayload where
  customer_name : String
  technician_name : String
  profession : String
  start_time : String
deriving DecidableEq, Repr

/-- Structured response of `/bookings/commands` in the primary variant
(`bookingApi.ts` lines 84-89). -/
structure CommandResult where
  intent : String
  message : Option String := none
  booking : Option Booking := none
  bookings : Option (List Booking) := none
deriving DecidableEq, Repr

/-- Client configuration passed to `axios.create` (`bookingApi.ts`
lines 30-36): base URL from the environment with a fixed default, and a
fixed 10-second timeout. -/
structure ApiClientConfig where
  baseURL : String
  timeout : Nat
deriving DecidableEq, Repr

/-- Embeds the `axios.create` call; `envBaseURL` is
`import.meta.env.VITE_BOOKING_API_URL` (`none` when unset). -/
def apiClientConfig (envBaseURL : Option String) : ApiClientConfig :=
  { baseURL := envBaseURL.getD "http://127.0.0.1:8000", timeout := 10000 }

namespace BookingApi

/-- Embeds `getAllBookings` (`bookingApi.ts` lines 136-143).  The awaited
transport outcome is passed as `outcome`: `.ok` carries the 2xx response
data, `.error` the value caught by the `catch` block. -/
def getAllBookings (outcome : Except ErrorInput (List Booking)) :
    Except BookingApiError (List Booking) :=
  match outcome with
  | .ok data => .ok data
  | .error e => .error (handleAxiosError e)

/-- Embeds `createBooking` (`bookingApi.ts` lines 145-152). -/
def createBooking (data : BookingCreatePayload)
    (outcome : Except ErrorInput Booking) : Except BookingApiError Booking :=
  match outcome with
  | .ok b => .ok b
  | .error e => .error (handleAxiosError e)

/-- Embeds `getBookingById` (`bookingApi.ts` lines 154-161). -/
def getBookingById (bookingId : String)
    (outcome : Except ErrorInput Booking) : Except BookingApiError Booking :=
  match outcome with
  | .ok b => .ok b
  | .error e => .error (handleAxiosError e)

/-- Embeds `deleteBooking` (`bookingApi.ts` lines 163-169). -/
def deleteBooking (bookingId : String)
    (outcome : Except ErrorInput Unit) : Except BookingApiError Unit :=
  match outcome with
  | .ok u => .ok u
  | .error e => .error (handleAxiosError e)

/-- Embeds `processCommand` (`bookingApi.ts` lines 175-184). -/
def processCommand (message : String)
    (outcome : Except ErrorInput CommandResult) :
    Except BookingApiError CommandResult :=
  match outcome with
  | .ok r => .ok r
  | .error e => .error (handleAxiosError e)

end BookingApi

/-- C2: for a 404 response whose body is the object with field `detail`
equal to "Booking not found", the thrown `BookingApiError` carries status
404 and the extracted detail "Booking not found" (surfaced in the error
message behind the fixed "API request failed: " tag, which the chat layer
strips back off before display). -/
theorem notFound404_detail_and_status (m : String) :
    detailOf
      { response := some { status := 404,
                           data := some (.objData [("detail", "Booking not found")]) },
        message := m } = "Booking not found" ∧
    (handleAxiosError (.axios
      { response := some { status := 404,
                           data := some (.objData [("detail", "Booking not found")]) },
        message := m })).status = some 404 ∧
    (handleAxiosError (.axios
      { response := some { status := 404,
                           data := some (.objData [("detail", "Booking not found")]) },
        message := m })).message = "API request failed: Booking not found" := by
  refine ⟨rfl, rfl, rfl⟩

/-- C3: on every failing outcome each of the five client operations returns
exactly the `BookingApiError` produced by `handleAxiosError` — it never
returns normally and never swallows the failure. -/
theorem clientOps_always_raise_BookingApiError (e : ErrorInput) :
    BookingApi.getAllBookings (.error e) = .error (handleAxiosError e) ∧
    (∀ data, BookingApi.createBooking data (.error e) = .error (handleAxiosError e)) ∧
    (∀ bookingId, BookingApi.getBookingById bookingId (.error e)
      = .error (handleAxiosError e)) ∧
    (∀ bookingId, BookingApi.deleteBooking bookingId (.error e)
      = .error (handleAxiosError e)) ∧
    (∀ message, BookingApi.processCommand message (.error e)
      = .error (handleAxiosError e)) ∧
    (handleAxiosError e).name = "BookingApiError" := by
  refine ⟨rfl, fun _ => rfl, fun _ => rfl, fun _ => rfl, fun _ => rfl, ?_⟩
  cases e <;> rfl

/-- C4: a failure carrying no HTTP response (e.g. a timeout after the fixed
10000 ms limit) yields a `BookingApiError` with no status whose detail is
the transport error message, not a response body. -/
theorem noResponse_failure_status_none (envBaseURL : Option String)
    (e : AxiosErrorModel) (hresp : e.response = none) (hmsg : e.message ≠ "") :
    (handleAxiosError (.axios e)).status = none ∧
    detailOf e = e.message ∧
    (handleAxiosError (.axios e)).message = "API request failed: " ++ e.message ∧
    (apiClientConfig envBaseURL).timeout = 10000 := by
  have hdetail : detailOf e = e.message := by
    unfold detailOf
    rw [hresp]
    simp [hmsg]
  refine ⟨?_, hdetail, ?_, rfl⟩
  · simp [handleAxiosError, hresp]
  · simp [handleAxiosError, hdetail]

/-- Witness for C4 at the concrete axios timeout error. -/
theorem noResponse_failure_status_none_witness :
    (handleAxiosError (.axios
      { response := none, message := "timeout of 10000ms exceeded" })).status = none ∧
    detailOf { response := none, message := "timeout of 10000ms exceeded" }
      = "timeout of 10000ms exceeded" ∧
    (handleAxiosError (.axios
      { response := none, message := "timeout of 10000ms exceeded" })).message
      = "API request failed: " ++ "timeout of 10000ms exceeded" ∧
    (apiClientConfig none).timeout = 10000 :=
  noResponse_failure_status_none none
    { response := none, message := "timeout of 10000ms exceeded" }
    rfl (by decide)

namespace JsDate

/-- Broken-down UTC instant, the observable content of a JS `Date` holding
a UTC-designated date-time string. -/
structure DateTime where
  year : Nat
  month : Nat
  day : Nat
  hour : Nat
  minute : Nat
  second : Nat
  ms : Nat
deriving DecidableEq, Repr

/-- Read exactly `k` decimal digits from the front of the list,
accumulating their value into `acc`. -/
def takeDigitsAux : Nat → Nat → List Char → Option (Nat × List Char)
  | 0, acc, l => some (acc, l)
  | _ + 1, _, [] => none
  | k + 1, acc, c :: cs =>
      if c.isDigit then takeDigitsAux k (acc * 10 + (c.toNat - 48)) cs
      else none

/-- Read exactly `k` decimal digits as a number. -/
def takeDigits (k : Nat) (l : List Char) : Option (Nat × List Char) :=
  takeDigitsAux k 0 l

/-- Consume one expected character. -/
def expectChar (c : Char) : List Char → Option (List Char)
  | [] => none
  | d :: ds => if d = c then some ds else none

/-- Calendar-date component `YYYY-MM-DDT` of the parser. -/
def parseDate (l : List Char) : Option (Nat × Nat × Nat × List Char) :=
  (takeDigits 4 l).bind fun p1 =>
  (expectChar '-' p1.2).bind fun r2 =>
  (takeDigits 2 r2).bind fun p2 =>
  (expectChar '-' p2.2).bind fun r4 =>
  (takeDigits 2 r4).bind fun p3 =>
  (expectChar 'T' p3.2).bind fun r6 =>
  some (p1.1, p2.1, p3.1, r6)

/-- Time-of-day component `HH:MM:SS` of the parser. -/
def parseTime (l : List Char) : Option (Nat × Nat × Nat × List Char) :=
  (takeDigits 2 l).bind fun p4 =>
  (expectChar ':' p4.2).bind fun r8 =>
  (takeDigits 2 r8).bind fun p5 =>
  (expectChar ':' p5.2).bind fun r10 =>
  (takeDigits 2 r10).bind fun p6 =>
  some (p4.1, p5.1, p6.1, p6.2)

/-- Optional fractional-seconds component `.sss` of the parser. -/
def parseMillis (l : List Char) : Option (Nat × List Char) :=
  if l.head? = some '.' then takeDigits 3 l.tail else some (0, l)

/-- Models parsing by the ECMAScript `Date` constructor of the Date Time
String Format, restricted to the UTC-designated forms
`YYYY-MM-DDTHH:MM:SSZ` and `YYYY-MM-DDTHH:MM:SS.sssZ` that the application
exchanges with its server; `none` models an invalid date.  Strings outside
this grammar (local-time forms, other calendars) are outside the modelled
scope and also map to `none`. -/
def parse (s : String) : Option DateTime :=
  (parseDate s.toList).bind fun pd =>
  (parseTime pd.2.2.2).bind fun pt =>
  (parseMillis pt.2.2.2).bind fun pm =>
  (expectChar 'Z' pm.2).bind fun r =>
  if r = [] ∧ 1 ≤ pd.2.1 ∧ pd.2.1 ≤ 12 ∧ 1 ≤ pd.2.2.1 ∧ pd.2.2.1 ≤ 31 ∧
      pt.1 ≤ 23 ∧ pt.2.1 ≤ 59 ∧ pt.2.2.1 ≤ 59 then
    some ⟨pd.1, pd.2.1, pd.2.2.1, pt.1, pt.2.1, pt.2.2.1, pm.1⟩
  else none

/-- Decimal digit character for `n < 10`. -/
def digitCh (n : Nat) : Char :=
  match n with
  | 0 => '0' | 1 => '1' | 2 => '2' | 3 => '3' | 4 => '4'
  | 5 => '5' | 6 => '6' | 7 => '7' | 8 => '8' | _ => '9'

/-- Two-digit zero-padded rendering. -/
def pad2 (n : Nat) : String := ⟨[digitCh (n / 10 % 10), digitCh (n % 10)]⟩

/-- Three-digit zero-padded rendering. -/
def pad3 (n : Nat) : String :=
  ⟨[digitCh (n / 100 % 10), digitCh (n / 10 % 10), digitCh (n % 10)]⟩

/-- Four-digit zero-padded rendering. -/
def pad4 (n : Nat) : String :=
  ⟨[digitCh (n / 1000 % 10), digitCh (n / 100 % 10),
    digitCh (n / 10 % 10), digitCh (n % 10)]⟩

/-- Models `Date.prototype.toISOString` on the broken-down UTC instant:
the canonical `YYYY-MM-DDTHH:MM:SS.sssZ` rendering. -/
def toISOString (d : DateTime) : String :=
  pad4 d.year ++ "-" ++ pad2 d.month ++ "-" ++ pad2 d.day ++ "T" ++
  pad2 d.hour ++ ":" ++ pad2 d.minute ++ ":" ++ pad2 d.second ++
  "." ++ pad3 d.ms ++ "Z"

/-- Field ranges guaranteed by `parse` and preserved by `toISOString`. -/
def DateTime.Valid (d : DateTime) : Prop :=
  d.year ≤ 9999 ∧ 1 ≤ d.month ∧ d.month ≤ 12 ∧ 1 ≤ d.day ∧ d.day ≤ 31 ∧
  d.hour ≤ 23 ∧ d.minute ≤ 59 ∧ d.second ≤ 59 ∧ d.ms ≤ 999

instance (d : DateTime) : Decidable d.Valid := by
  unfold DateTime.Valid; infer_instance

end JsDate

namespace BookingApiAlt

/-- Embeds `toISO` from the alternate client variant
(`src/theme/index.ts` lines 263-265): `new Date(date).toISOString()` on a
string input; `none` models the `RangeError` the builtin throws on an
invalid date. -/
def toISO (date : String) : Option String :=
  (JsDate.parse date).map JsDate.toISOString

/-- The `res.data` envelope `\x7bsuccess, data\x7d` used by the alternate
variant's endpoints. -/
structure Envelope (α : Type) where
  success : Bool
  data : α
deriving DecidableEq, Repr

/-- The per-booking rewrite performed inside the alternate
`getAllBookings`' `map` (`theme/index.ts` lines 303-307): spread the
booking and replace both timestamps by `toISO` of themselves; `none`
models a thrown `RangeError` escaping the `map`. -/
def normalizeBooking (b : Booking) : Option Booking := do
  let st ← toISO b.start_time
  let en ← toISO b.end_time
  pure { b with start_time := st, end_time := en }

/-- Embeds the alternate `getAllBookings` (`theme/index.ts` lines 298-311):
unwrap the envelope and map `normalizeBooking` over the list; a
`RangeError` raised inside the `try` reaches the `catch` as a non-axios
error. -/
def getAllBookings (outcome : Except ErrorInput (Envelope (List Booking))) :
    Except BookingApiError (List Booking) :=
  match outcome with
  | .error e => .error (handleAxiosError e)
  | .ok env =>
    match env.data.mapM normalizeBooking with
    | some bs => .ok bs
    | none => .error (handleAxiosError .nonAxios)

/-- Embeds the alternate `createBooking` (`theme/index.ts` lines 315-322):
returns `res.data.data` unchanged, with no timestamp rewriting. -/
def createBooking (data : BookingCreatePayload)
    (outcome : Except ErrorInput (Envelope Booking)) :
    Except BookingApiError Booking :=
  match outcome with
  | .ok env => .ok env.data
  | .error e => .error (handleAxiosError e)

/-- Embeds the alternate `getBookingById` (`theme/index.ts` lines 325-332):
returns `res.data.data` unchanged, with no timestamp rewriting. -/
def getBookingById (bookingId : String)
    (outcome : Except ErrorInput (Envelope Booking)) :
    Except BookingApiError Booking :=
  match outcome with
  | .ok env => .ok env.data
  | .error e => .error (handleAxiosError e)

end BookingApiAlt

/-- Request configuration seen by the axios request interceptors: method,
url and headers (modelled as an association list). -/
structure ReqConfig where
  method : String
  url : String
  headers : List (String × String)
deriving DecidableEq, Repr

/-- Models the JS property assignment `config.headers.Authorization = v`
up to key lookup: set the key, dropping any previous binding. -/
def setHeader (k v : String) (hs : List (String × String)) :
    List (String × String) :=
  (k, v) :: hs.filter (fun p => p.1 != k)

/-- Embeds the primary request interceptor (`bookingApi.ts` lines 38-41):
the body only returns `config`; nothing is attached and nothing is logged.
`store` models `localStorage.getItem` and is not consulted.  The second
component collects the `console.log` lines emitted (none here). -/
def requestInterceptor (store : String → Option String) (config : ReqConfig) :
    ReqConfig × List String :=
  (config, [])

/-- Embeds the alternate request interceptor (`theme/index.ts`
lines 186-193): read `authToken` from `localStorage`, attach it as a
`Bearer` Authorization header when present, and log method and path. -/
def requestInterceptorAlt (store : String → Option String) (config : ReqConfig) :
    ReqConfig × List String :=
  let config' :=
    match store "authToken" with
    | some token =>
        { config with
            headers := setHeader "Authorization" ("Bearer " ++ token) config.headers }
    | none => config
  (config', ["[API] " ++ config.method.toUpper ++ " " ++ config.url])

namespace JsDate

theorem digitCh_isDigit (n : Nat) : (digitCh n).isDigit = true := by
  unfold digitCh; split <;> decide

theorem digitCh_toNat (n : Nat) (h : n < 10) : (digitCh n).toNat = 48 + n := by
  interval_cases n <;> decide

theorem isDigit_toNat_bounds (c : Char) (h : c.isDigit = true) :
    48 ≤ c.toNat ∧ c.toNat ≤ 57 := by
  simp [Char.isDigit] at h
  exact ⟨UInt32.le_def.mp h.1, UInt32.le_def.mp h.2⟩

theorem takeDigitsAux_append (ds rest : List Char) (acc : Nat)
    (hds : ∀ c ∈ ds, c.isDigit = true) :
    takeDigitsAux ds.length acc (ds ++ rest)
      = some (ds.foldl (fun a c => a * 10 + (c.toNat - 48)) acc, rest) := by
  induction ds generalizing acc with
  | nil => simp [takeDigitsAux]
  | cons c cs ih =>
    have hc : c.isDigit = true := hds c (by simp)
    simp only [List.length_cons, List.cons_append, takeDigitsAux, hc, if_true,
      List.foldl_cons]
    exact ih _ (fun x hx => hds x (by simp [hx]))

theorem takeDigitsAux_lt (k : Nat) (acc : Nat) (l rest : List Char) (v : Nat)
    (h : takeDigitsAux k acc l = some (v, rest)) : v < (acc + 1) * 10 ^ k := by
  induction k generalizing acc l with
  | zero =>
    simp [takeDigitsAux] at h
    simp [h.1]
  | succ k ih =>
    match l with
    | [] => simp [takeDigitsAux] at h
    | c :: cs =>
      simp only [takeDigitsAux] at h
      by_cases hc : c.isDigit
      · rw [if_pos hc] at h
        have hbound := (isDigit_toNat_bounds c hc).2
        have hv := ih (acc * 10 + (c.toNat - 48)) cs h
        calc v < (acc * 10 + (c.toNat - 48) + 1) * 10 ^ k := hv
          _ ≤ ((acc + 1) * 10) * 10 ^ k :=
              Nat.mul_le_mul_right _ (by omega)
          _ = (acc + 1) * 10 ^ (k + 1) := by ring
      · rw [if_neg hc] at h
        exact absurd h (by simp)

theorem takeDigits_pad2 (m : Nat) (rest : List Char) :
    takeDigits 2 ((pad2 m).data ++ rest) = some (m % 100, rest) := by
  have h := takeDigitsAux_append [digitCh (m / 10 % 10), digitCh (m % 10)] rest 0
    (by intro c hc
        simp only [List.mem_cons, List.not_mem_nil, or_false] at hc
        rcases hc with rfl | rfl <;> exact digitCh_isDigit _)
  simp only [List.length_cons, List.length_nil, List.foldl_cons, List.foldl_nil] at h
  rw [show (pad2 m).data = [digitCh (m / 10 % 10), digitCh (m % 10)] from rfl,
    takeDigits, h]
  have h1 : m / 10 % 10 < 10 := Nat.mod_lt _ (by decide)
  have h2 : m % 10 < 10 := Nat.mod_lt _ (by decide)
  rw [digitCh_toNat _ h1, digitCh_toNat _ h2]
  congr 2
  omega

theorem takeDigits_pad3 (m : Nat) (rest : List Char) :
    takeDigits 3 ((pad3 m).data ++ rest) = some (m % 1000, rest) := by
  have h := takeDigitsAux_append
    [digitCh (m / 100 % 10), digitCh (m / 10 % 10), digitCh (m % 10)] rest 0
    (by intro c hc
        simp only [List.mem_cons, List.not_mem_nil, or_false] at hc
        rcases hc with rfl | rfl | rfl <;> exact digitCh_isDigit _)
  simp only [List.length_cons, List.length_nil, List.foldl_cons, List.foldl_nil] at h
  rw [show (pad3 m).data
      = [digitCh (m / 100 % 10), digitCh (m / 10 % 10), digitCh (m % 10)] from rfl,
    takeDigits, h]
  have h1 : m / 100 % 10 < 10 := Nat.mod_lt _ (by decide)
  have h2 : m / 10 % 10 < 10 := Nat.mod_lt _ (by decide)
  have h3 : m % 10 < 10 := Nat.mod_lt _ (by decide)
  rw [digitCh_toNat _ h1, digitCh_toNat _ h2, digitCh_toNat _ h3]
  congr 2
  omega

theorem takeDigits_pad4 (m : Nat) (rest : List Char) :
    takeDigits 4 ((pad4 m).data ++ rest) = some (m % 10000, rest) := by
  have h := takeDigitsAux_append
    [digitCh (m / 1000 % 10), digitCh (m / 100 % 10),
     digitCh (m / 10 % 10), digitCh (m % 10)] rest 0
    (by intro c hc
        simp only [List.mem_cons, List.not_mem_nil, or_false] at hc
        rcases hc with rfl | rfl | rfl | rfl <;> exact digitCh_isDigit _)
  simp only [List.length_cons, List.length_nil, List.foldl_cons, List.foldl_nil] at h
  rw [show (pad4 m).data
      = [digitCh (m / 1000 % 10), digitCh (m / 100 % 10),
         digitCh (m / 10 % 10), digitCh (m % 10)] from rfl,
    takeDigits, h]
  have h1 : m / 1000 % 10 < 10 := Nat.mod_lt _ (by decide)
  have h2 : m / 100 % 10 < 10 := Nat.mod_lt _ (by decide)
  have h3 : m / 10 % 10 < 10 := Nat.mod_lt _ (by decide)
  have h4 : m % 10 < 10 := Nat.mod_lt _ (by decide)
  rw [digitCh_toNat _ h1, digitCh_toNat _ h2, digitCh_toNat _ h3, digitCh_toNat _ h4]
  congr 2
  omega

end JsDate

namespace JsDate

theorem parseDate_year_lt (l : List Char) (pd : Nat × Nat × Nat × List Char)
    (h : parseDate l = some pd) : pd.1 < 10000 := by
  unfold parseDate at h
  obtain ⟨p1, hp1, h⟩ := Option.bind_eq_some.mp h
  obtain ⟨r2, hr2, h⟩ := Option.bind_eq_some.mp h
  obtain ⟨p2, hp2, h⟩ := Option.bind_eq_some.mp h
  obtain ⟨r4, hr4, h⟩ := Option.bind_eq_some.mp h
  obtain ⟨p3, hp3, h⟩ := Option.bind_eq_some.mp h
  obtain ⟨r6, hr6, h⟩ := Option.bind_eq_some.mp h
  obtain rfl := Option.some_inj.mp h
  simpa using takeDigitsAux_lt 4 0 l p1.2 p1.1 hp1

theorem parseMillis_le (l : List Char) (pm : Nat × List Char)
    (h : parseMillis l = some pm) : pm.1 ≤ 999 := by
  unfold parseMillis at h
  by_cases hdot : l.head? = some '.'
  · rw [if_pos hdot] at h
    have := takeDigitsAux_lt 3 0 l.tail pm.2 pm.1 h
    simp at this
    omega
  · rw [if_neg hdot] at h
    obtain rfl := Option.some_inj.mp h
    exact Nat.zero_le _

theorem parse_valid (s : String) (d : DateTime) (h : parse s = some d) :
    d.Valid := by
  unfold parse at h
  obtain ⟨pd, hpd, h⟩ := Option.bind_eq_some.mp h
  obtain ⟨pt, hpt, h⟩ := Option.bind_eq_some.mp h
  obtain ⟨pm, hpm, h⟩ := Option.bind_eq_some.mp h
  obtain ⟨r, hr, h⟩ := Option.bind_eq_some.mp h
  obtain ⟨hcond, hd⟩ := Option.ite_none_right_eq_some.mp h
  obtain ⟨hnil, h1mo, hmo12, h1dd, hdd31, hh23, hmi59, hsec59⟩ := hcond
  obtain rfl := Option.some_inj.mp hd
  have hy := parseDate_year_lt _ _ hpd
  have hms := parseMillis_le _ _ hpm
  exact ⟨(by omega : pd.1 ≤ 9999), h1mo, hmo12, h1dd, hdd31, hh23, hmi59,
    hsec59, hms⟩

theorem expectChar_cons (c : Char) (l : List Char) :
    expectChar c (c :: l) = some l := by
  simp [expectChar]

theorem toISOString_data (d : DateTime) :
    (toISOString d).toList
      = (pad4 d.year).data ++ '-' :: ((pad2 d.month).data ++ '-' ::
        ((pad2 d.day).data ++ 'T' :: ((pad2 d.hour).data ++ ':' ::
        ((pad2 d.minute).data ++ ':' :: ((pad2 d.second).data ++ '.' ::
        ((pad3 d.ms).data ++ ['Z'])))))) := rfl

theorem parseDate_pads (y mo dd : Nat) (rest : List Char) :
    parseDate ((pad4 y).data ++ '-' :: ((pad2 mo).data ++ '-' ::
      ((pad2 dd).data ++ 'T' :: rest)))
      = some (y % 10000, mo % 100, dd % 100, rest) := by
  simp only [parseDate, takeDigits_pad4, Option.some_bind, expectChar_cons,
    takeDigits_pad2]

theorem parseTime_pads (hh mi sec : Nat) (rest : List Char) :
    parseTime ((pad2 hh).data ++ ':' :: ((pad2 mi).data ++ ':' ::
      ((pad2 sec).data ++ rest)))
      = some (hh % 100, mi % 100, sec % 100, rest) := by
  simp only [parseTime, takeDigits_pad2, Option.some_bind, expectChar_cons]

theorem parseMillis_dot (ms : Nat) (rest : List Char) :
    parseMillis ('.' :: ((pad3 ms).data ++ rest)) = some (ms % 1000, rest) := by
  simp [parseMillis, takeDigits_pad3]

theorem parse_toISOString (d : DateTime) (hv : d.Valid) :
    parse (toISOString d) = some d := by
  obtain ⟨y, mo, dd, hh, mi, sec, ms⟩ := d
  obtain ⟨h1, h2, h3, h4, h5, h6, h7, h8, h9⟩ := hv
  replace h1 : y ≤ 9999 := h1
  replace h2 : 1 ≤ mo := h2
  replace h3 : mo ≤ 12 := h3
  replace h4 : 1 ≤ dd := h4
  replace h5 : dd ≤ 31 := h5
  replace h6 : hh ≤ 23 := h6
  replace h7 : mi ≤ 59 := h7
  replace h8 : sec ≤ 59 := h8
  replace h9 : ms ≤ 999 := h9
  have ey : y % 10000 = y := Nat.mod_eq_of_lt (by omega)
  have emo : mo % 100 = mo := Nat.mod_eq_of_lt (by omega)
  have edd : dd % 100 = dd := Nat.mod_eq_of_lt (by omega)
  have ehh : hh % 100 = hh := Nat.mod_eq_of_lt (by omega)
  have emi : mi % 100 = mi := Nat.mod_eq_of_lt (by omega)
  have esec : sec % 100 = sec := Nat.mod_eq_of_lt (by omega)
  have ems : ms % 1000 = ms := Nat.mod_eq_of_lt (by omega)
  unfold parse
  rw [toISOString_data]
  simp only [parseDate_pads, Option.some_bind, parseTime_pads, parseMillis_dot,
    expectChar_cons, ey, emo, edd, ehh, emi, esec, ems]
  simp [expectChar_cons, h2, h3, h4, h5, h6, h7, h8]

end JsDate

namespace BookingApiAlt

theorem toISO_idempotent (s t : String) (h : toISO s = some t) :
    toISO t = some t := by
  unfold toISO at h ⊢
  obtain ⟨d, hd, rfl⟩ := Option.map_eq_some'.mp h
  rw [JsDate.parse_toISOString d (JsDate.parse_valid s d hd)]
  rfl

end BookingApiAlt

/-- Message severities used by the chat view (`MessageType` in
`src/components/ChatInterface/index.tsx` line 35). -/
inductive MessageType
  | info
  | success
  | error
  | warning
deriving DecidableEq, Repr

/-- Embeds `determineMessageType` (`index.tsx` lines 214-219): first
substring match among error, success, warning wins; otherwise info. -/
def determineMessageType (intent : String) : MessageType :=
  if JsStr.includes intent "error" then .error
  else if JsStr.includes intent "success" then .success
  else if JsStr.includes intent "warning" then .warning
  else .info

/-- User-authored chat message (`UserChatMessage`, `index.tsx`
lines 37-42); `timestamp` is the `Date` value in milliseconds and `id`
the stringified `Date.now()`. -/
structure UserChatMessage where
  id : String
  content : String
  timestamp : Int
deriving DecidableEq, Repr

/-- Content of a system message (`SystemChatMessage.content`, `index.tsx`
lines 44-55). -/
structure SystemMessageContent where
  intent : String
  message : String
  booking : Option Booking := none
  bookings : Option (List Booking) := none
deriving DecidableEq, Repr

/-- System-authored chat message (`SystemChatMessage`, `index.tsx`
lines 44-55). -/
structure SystemChatMessage where
  id : String
  content : SystemMessageContent
  timestamp : Int
  type : MessageType
deriving DecidableEq, Repr

/-- A transcript entry (`ChatMessage`, `index.tsx` line 57). -/
inductive ChatMessage
  | user (m : UserChatMessage)
  | system (m : SystemChatMessage)
deriving DecidableEq, Repr

/-- The component state read and written by `handleSend`: the `messages`,
`inputValue` and `isLoading` `useState` cells (`index.tsx` lines 72-74). -/
structure ChatState where
  messages : List ChatMessage
  inputValue : String
  isLoading : Bool
deriving DecidableEq, Repr

/-- A network request issued through the API client, identified by
operation and argument. -/
inductive Request
  | getAllBookings
  | createBooking (payload : BookingCreatePayload)
  | getBookingById (bookingId : String)
  | deleteBooking (bookingId : String)
  | processCommand (message : String)
deriving DecidableEq, Repr

/-- Embeds the synchronous prefix of `handleSend` (`index.tsx`
lines 144-161): trim the input; return with nothing done when the trimmed
value is falsy (empty) or a request is already loading; otherwise append
the user message, clear the input, set the loading flag and dispatch the
`processCommand` request.  `now` models `Date.now()`; the second component
collects the requests dispatched before the first `await` returns. -/
def handleSendStart (now : Int) (st : ChatState) : ChatState × List Request :=
  let trimmed := JsStr.trim st.inputValue
  if trimmed = "" || st.isLoading then (st, [])
  else
    ({ messages := st.messages ++
        [.user { id := toString now, content := trimmed, timestamp := now }],
       inputValue := "",
       isLoading := true },
     [.processCommand trimmed])

/-- Partially-built record pushed by `parseBookingsFromMessage`
(`index.tsx` lines 105-129); absent fields model JS `undefined`. -/
structure ParsedBooking where
  id : Option String := none
  technician_name : Option String := none
  profession : Option String := none
  start_time : Option String := none
deriving DecidableEq, Repr

/-- Embeds the `parts.forEach` body of `parseBookingsFromMessage`
(`index.tsx` lines 114-122): the four independent `startsWith` checks on
one comma-separated part; `none` models the `RangeError` thrown by
`new Date(startStr).toISOString()` on an unparseable `Start` value. -/
def applyPart (b : ParsedBooking) (part : String) : Option ParsedBooking :=
  let b1 :=
    if JsStr.startsWith part "ID:" then
      { b with id := some (JsStr.trim ((JsStr.split ':' part).getD 1 "")) }
    else b
  let b2 :=
    if JsStr.startsWith part "Technician:" then
      { b1 with
        technician_name := some (JsStr.trim ((JsStr.split ':' part).getD 1 "")) }
    else b1
  let b3 :=
    if JsStr.startsWith part "Profession:" then
      { b2 with
        profession := some (JsStr.trim ((JsStr.split ':' part).getD 1 "")) }
    else b2
  if JsStr.startsWith part "Start:" then
    match BookingApiAlt.toISO
        (JsStr.trim (JsStr.joinWith ":" ((JsStr.split ':' part).drop 1))) with
    | some iso => some { b3 with start_time := some iso }
    | none => none
  else some b3

/-- Records contributed by one line of the message (`index.tsx`
lines 109-125): lines starting with `- ID:` are split after dropping the
first two characters, each part folded through `applyPart`, and the built
record pushed only when its `id` is truthy. -/
def lineRecords (line : String) : Option (List ParsedBooking) :=
  if JsStr.startsWith line "- ID:" then
    match ((JsStr.split ',' (JsStr.substringFrom 2 line)).map
        JsStr.trim).foldlM applyPart {} with
    | some b =>
        some (match b.id with
          | some s => if s != "" then [b] else []
          | none => [])
    | none => none
  else some []

/-- Embeds `parseBookingsFromMessage` (`index.tsx` lines 105-129): split
the message on newlines and accumulate each line's records; `none` models
an exception escaping the `forEach`. -/
def parseBookingsFromMessage (message : String) : Option (List ParsedBooking) :=
  (JsStr.split '\n' message).foldlM
    (fun acc line => (lineRecords line).map (fun recs => acc ++ recs)) []

/-- Request batches dispatched by the chat submit action, in program
order: `handleSend` awaits `processCommand(trimmed)` and only then
`updateAnalytics` awaits `getAllBookings()` (`index.tsx` lines 131-162),
the latter only when an `onAnalysisUpdate` callback was supplied.  Each
inner list holds the requests started before any of them settles. -/
def handleSendBatches (hasCallback : Bool) (trimmed : String) :
    List (List Request) :=
  [[.processCommand trimmed]] ++ (if hasCallback then [[.getAllBookings]] else [])

/-- Request batch dispatched by opening the analytics drawer with no data
loaded: the `App` effect starts `getAllBookings()` and
`processCommand('analyze bookings')` together under `Promise.all`
(`App` variant in `src/services/bookingApi.ts` lines 243-259), so both are
in flight concurrently. -/
def analyticsInitBatches : List (List Request) :=
  [[.getAllBookings, .processCommand "analyze bookings"]]

/-- Requests dispatched by the theme toggle: the handler only flips the
`mode` state (`App.tsx`), issuing no request. -/
def toggleThemeBatches : List (List Request) := []

namespace JsStr

theorem trim_of_whitespace (s : String)
    (h : ∀ c ∈ s.toList, isJsWhitespace c) : trim s = "" := by
  unfold trim
  rw [List.dropWhile_eq_nil_iff.mpr h]
  rfl

end JsStr

/-- C5: submitting an empty or whitespace-only input returns before doing
anything: the component state — the message list included — is unchanged
and no request, in particular no `processCommand`, is dispatched. -/
theorem emptyInput_no_request (now : Int) (st : ChatState)
    (h : ∀ c ∈ st.inputValue.toList, JsStr.isJsWhitespace c) :
    handleSendStart now st = (st, []) := by
  have htrim : JsStr.trim st.inputValue = "" := JsStr.trim_of_whitespace _ h
  unfold handleSendStart
  simp [htrim]

/-- Witness for C5 at a whitespace-only input. -/
theorem emptyInput_no_request_witness :
    handleSendStart 0 { messages := [], inputValue := " \t ", isLoading := false }
      = ({ messages := [], inputValue := " \t ", isLoading := false }, []) :=
  emptyInput_no_request 0
    { messages := [], inputValue := " \t ", isLoading := false } (by decide)

/-- C9: `determineMessageType` is a total function of the intent string
with fixed precedence error, then success, then warning, then info; an
intent containing both error and success is classified error. -/
theorem determineMessageType_precedence (intent : String) :
    (JsStr.includes intent "error" = true →
      determineMessageType intent = .error) ∧
    (JsStr.includes intent "error" = false →
      JsStr.includes intent "success" = true →
      determineMessageType intent = .success) ∧
    (JsStr.includes intent "error" = false →
      JsStr.includes intent "success" = false →
      JsStr.includes intent "warning" = true →
      determineMessageType intent = .warning) ∧
    (JsStr.includes intent "error" = false →
      JsStr.includes intent "success" = false →
      JsStr.includes intent "warning" = false →
      determineMessageType intent = .info) := by
  unfold determineMessageType
  refine ⟨?_, ?_, ?_, ?_⟩ <;> intros <;> simp_all

/-- Witness for C9, including an intent containing both error and
success. -/
theorem determineMessageType_precedence_witness :
    determineMessageType "error_and_success" = .error ∧
    determineMessageType "create_success" = .success ∧
    determineMessageType "warning_low" = .warning ∧
    determineMessageType "welcome" = .info :=
  ⟨(determineMessageType_precedence "error_and_success").1 (by decide),
   (determineMessageType_precedence "create_success").2.1 (by decide) (by decide),
   (determineMessageType_precedence "warning_low").2.2.1
     (by decide) (by decide) (by decide),
   (determineMessageType_precedence "welcome").2.2.2
     (by decide) (by decide) (by decide)⟩

/-- C6 counterexample: the primary client's request interceptor returns
the config unchanged — no Authorization header is attached and nothing is
logged — even when a bearer token is present in storage. -/
theorem requestInterceptor_ignores_token_counterexample :
    (fun key => if key = "authToken" then some "tok123" else none) "authToken"
      = some "tok123" ∧
    requestInterceptor
      (fun key => if key = "authToken" then some "tok123" else none)
      { method := "get", url := "/bookings", headers := [] }
      = ({ method := "get", url := "/bookings", headers := [] }, []) ∧
    (requestInterceptor
      (fun key => if key = "authToken" then some "tok123" else none)
      { method := "get", url := "/bookings", headers := [] }).1.headers.lookup
        "Authorization" = none := by
  refine ⟨by decide, rfl, rfl⟩

/-- C6 amended: the bearer-token/logging contract holds only for the
alternate client variant: its interceptor attaches the stored token when
present and logs method and path on every request, while the primary
client's interceptor returns the config unchanged and emits no log. -/
theorem requestInterceptorAlt_attaches_and_logs
    (store : String → Option String) (config : ReqConfig) :
    (∀ token, store "authToken" = some token →
      (requestInterceptorAlt store config).1.headers.lookup "Authorization"
        = some ("Bearer " ++ token)) ∧
    (store "authToken" = none →
      (requestInterceptorAlt store config).1 = config) ∧
    (requestInterceptorAlt store config).2
      = ["[API] " ++ config.method.toUpper ++ " " ++ config.url] ∧
    requestInterceptor store config = (config, []) := by
  refine ⟨?_, ?_, ?_, rfl⟩
  · intro token htok
    simp [requestInterceptorAlt, htok, setHeader, List.lookup]
  · intro hnone
    simp [requestInterceptorAlt, hnone]
  · cases hcase : store "authToken" <;> simp [requestInterceptorAlt, hcase]

/-- Witness for C6 amended, with and without a stored token. -/
theorem requestInterceptorAlt_attaches_and_logs_witness :
    (requestInterceptorAlt
      (fun key => if key = "authToken" then some "tok123" else none)
      { method := "get", url := "/bookings", headers := [] }).1.headers.lookup
        "Authorization" = some ("Bearer " ++ "tok123") ∧
    (requestInterceptorAlt (fun _ => none)
      { method := "get", url := "/bookings", headers := [] }).1
      = { method := "get", url := "/bookings", headers := [] } :=
  ⟨(requestInterceptorAlt_attaches_and_logs
      (fun key => if key = "authToken" then some "tok123" else none)
      { method := "get", url := "/bookings", headers := [] }).1
        "tok123" (by decide),
   (requestInterceptorAlt_attaches_and_logs (fun _ => none)
      { method := "get", url := "/bookings", headers := [] }).2.1 rfl⟩

/-- C7 counterexample: `getBookingById` hands back the server's booking
with its timestamps unchanged even when they are not canonical: the start
time `2025-01-03T10:00:00Z` is returned as-is although its canonical
ISO-8601 rendering is `2025-01-03T10:00:00.000Z`. -/
theorem getBookingById_no_normalization_counterexample :
    BookingApiAlt.getBookingById "b1"
      (.ok { success := true, data :=
        { id := "b1", customer_name := "Alice", technician_name := "Bob",
          profession := "Plumber", start_time := "2025-01-03T10:00:00Z",
          end_time := "2025-01-03T11:00:00Z" } })
      = .ok
          { id := "b1", customer_name := "Alice", technician_name := "Bob",
            profession := "Plumber", start_time := "2025-01-03T10:00:00Z",
            end_time := "2025-01-03T11:00:00Z" } ∧
    BookingApiAlt.toISO "2025-01-03T10:00:00Z"
      = some "2025-01-03T10:00:00.000Z" ∧
    "2025-01-03T10:00:00.000Z" ≠ "2025-01-03T10:00:00Z" := by
  refine ⟨rfl, by decide, by decide⟩

/-- C7 amended: only `getAllBookings` normalizes timestamps: it maps each
booking through `normalizeBooking`, rewriting both timestamps to their
canonical rendering (on which `toISO` is the identity), while
`createBooking` and `getBookingById` return the server's booking
unchanged, so the round-trip normalization property holds only through
`getAllBookings`. -/
theorem only_getAllBookings_normalizes (s : Bool) (b : Booking)
    (payload : BookingCreatePayload) (bs bs' : List Booking)
    (h : bs.mapM BookingApiAlt.normalizeBooking = some bs') :
    BookingApiAlt.getAllBookings (.ok { success := s, data := bs }) = .ok bs' ∧
    BookingApiAlt.getBookingById "x" (.ok { success := s, data := b }) = .ok b ∧
    BookingApiAlt.createBooking payload (.ok { success := s, data := b })
      = .ok b ∧
    (∀ b1 b2, BookingApiAlt.normalizeBooking b1 = some b2 →
      BookingApiAlt.toISO b2.start_time = some b2.start_time ∧
      BookingApiAlt.toISO b2.end_time = some b2.end_time) := by
  refine ⟨?_, rfl, rfl, ?_⟩
  · have hloop : List.mapM.loop BookingApiAlt.normalizeBooking bs [] = some bs' := h
    unfold BookingApiAlt.getAllBookings
    simp [hloop]
  · intro b1 b2 hn
    unfold BookingApiAlt.normalizeBooking at hn
    obtain ⟨st, hst, hn⟩ := Option.bind_eq_some.mp hn
    obtain ⟨en, hen, hn⟩ := Option.bind_eq_some.mp hn
    obtain rfl := Option.some_inj.mp hn
    exact ⟨BookingApiAlt.toISO_idempotent _ _ hst,
      BookingApiAlt.toISO_idempotent _ _ hen⟩

/-- Witness for C7 amended at a concrete server response. -/
theorem only_getAllBookings_normalizes_witness :
    BookingApiAlt.getAllBookings (.ok { success := true, data :=
      [{ id := "b1", customer_name := "Alice", technician_name := "Bob",
         profession := "Plumber", start_time := "2025-01-03T10:00:00Z",
         end_time := "2025-01-03T11:00:00Z" }] })
      = .ok
          [{ id := "b1", customer_name := "Alice", technician_name := "Bob",
             profession := "Plumber", start_time := "2025-01-03T10:00:00.000Z",
             end_time := "2025-01-03T11:00:00.000Z" }] :=
  (only_getAllBookings_normalizes true
    { id := "x", customer_name := "x", technician_name := "x",
      profession := "x", start_time := "x", end_time := "x" }
    { customer_name := "x", technician_name := "x", profession := "x",
      start_time := "x" }
    [{ id := "b1", customer_name := "Alice", technician_name := "Bob",
       profession := "Plumber", start_time := "2025-01-03T10:00:00Z",
       end_time := "2025-01-03T11:00:00Z" }]
    [{ id := "b1", customer_name := "Alice", technician_name := "Bob",
       profession := "Plumber", start_time := "2025-01-03T10:00:00.000Z",
       end_time := "2025-01-03T11:00:00.000Z" }]
    (by decide)).1

/-- C8 counterexample: opening the analytics drawer with no data loaded
starts two requests concurrently under `Promise.all`, refuting the claim
that each user action keeps at most one request outstanding. -/
theorem analyticsInit_two_concurrent_requests :
    analyticsInitBatches
      = [[.getAllBookings, .processCommand "analyze bookings"]] ∧
    ∃ batch ∈ analyticsInitBatches, batch.length = 2 := by
  refine ⟨rfl, [.getAllBookings, .processCommand "analyze bookings"], ?_, rfl⟩
  simp [analyticsInitBatches]

/-- C8 amended: the chat submit action issues its requests strictly
sequentially (every batch holds at most one request) and the theme toggle
issues none, but the drawer-open analytics initialization issues one batch
of two concurrent requests. -/
theorem perAction_request_batches (hasCallback : Bool) (trimmed : String) :
    ((handleSendBatches hasCallback trimmed).all fun batch =>
      decide (batch.length ≤ 1)) = true ∧
    toggleThemeBatches = [] ∧
    (analyticsInitBatches.all fun batch => decide (batch.length = 2))
      = true := by
  refine ⟨?_, rfl, rfl⟩
  cases hasCallback <;> rfl

theorem lineRecords_mem (line : String) (recs : List ParsedBooking)
    (b : ParsedBooking) (h : lineRecords line = some recs) (hb : b ∈ recs) :
    JsStr.startsWith line "- ID:" = true ∧ ∃ s, b.id = some s ∧ s ≠ "" := by
  unfold lineRecords at h
  by_cases hs : JsStr.startsWith line "- ID:" = true
  · rw [if_pos hs] at h
    refine ⟨hs, ?_⟩
    split at h
    · rename_i b1 hfold
      obtain rfl := Option.some_inj.mp h
      rcases hid : b1.id with _ | s
      · rw [hid] at hb
        simp at hb
      · rw [hid] at hb
        dsimp only at hb
        by_cases hval : (s != "") = true
        · rw [if_pos hval] at hb
          obtain rfl : b = b1 := by simpa using hb
          exact ⟨s, hid, by simpa using hval⟩
        · rw [if_neg hval] at hb
          simp at hb
    · exact absurd h (by simp)
  · rw [if_neg hs] at h
    obtain rfl := Option.some_inj.mp h
    simp at hb

theorem foldlM_lines_mem (lines : List String) :
    ∀ (acc bs : List ParsedBooking),
      lines.foldlM
        (fun acc line => (lineRecords line).map (fun recs => acc ++ recs)) acc
        = some bs →
      ∀ b ∈ bs,
        b ∈ acc ∨ ∃ line ∈ lines, ∃ recs, lineRecords line = some recs ∧ b ∈ recs := by
  induction lines with
  | nil =>
    intro acc bs h b hb
    rw [List.foldlM_nil] at h
    obtain rfl := Option.some_inj.mp h
    exact Or.inl hb
  | cons l ls ih =>
    intro acc bs h b hb
    rw [List.foldlM_cons] at h
    obtain ⟨acc2, hacc, h⟩ := Option.bind_eq_some.mp h
    obtain ⟨recs, hrecs, rfl⟩ := Option.map_eq_some'.mp hacc
    rcases ih _ _ h b hb with hin | ⟨line, hline, recs2, hrecs2, hbmem⟩
    · rcases List.mem_append.mp hin with h1 | h2
      · exact Or.inl h1
      · exact Or.inr ⟨l, List.mem_cons_self _ _, recs, hrecs, h2⟩
    · exact Or.inr ⟨line, List.mem_cons_of_mem _ hline, recs2, hrecs2, hbmem⟩

/-- C10: every record returned by `parseBookingsFromMessage` has a truthy
(non-empty) id — records with a falsy parsed id are discarded — and every
record originates from a line starting with `- ID:`; other lines
contribute no records. -/
theorem parseBookings_only_id_lines (message : String)
    (bs : List ParsedBooking) (b : ParsedBooking)
    (hres : parseBookingsFromMessage message = some bs) (hmem : b ∈ bs) :
    (∃ s, b.id = some s ∧ s ≠ "") ∧
    ∃ line ∈ JsStr.split '\n' message,
      JsStr.startsWith line "- ID:" = true ∧
      ∃ recs, lineRecords line = some recs ∧ b ∈ recs := by
  unfold parseBookingsFromMessage at hres
  rcases foldlM_lines_mem _ _ _ hres b hmem with hin | ⟨line, hline, recs, hrecs, hbmem⟩
  · simp at hin
  · have hid := lineRecords_mem line recs b hrecs hbmem
    exact ⟨hid.2, line, hline, hid.1, recs, hrecs, hbmem⟩

/-- Witness for C10 at a concrete three-line message: one well-formed
booking line, one plain line, and one booking line whose id is empty. -/
theorem parseBookings_only_id_lines_witness :
    (∃ s, (⟨some "abc", some "Bob", none, none⟩ : ParsedBooking).id
      = some s ∧ s ≠ "") ∧
    ∃ line ∈ JsStr.split '\n'
        "- ID: abc, Technician: Bob\nhello\n- ID: , Profession: X",
      JsStr.startsWith line "- ID:" = true ∧
      ∃ recs, lineRecords line = some recs ∧
        (⟨some "abc", some "Bob", none, none⟩ : ParsedBooking) ∈ recs :=
  parseBookings_only_id_lines
    "- ID: abc, Technician: Bob\nhello\n- ID: , Profession: X"
    [⟨some "abc", some "Bob", none, none⟩]
    ⟨some "abc", some "Bob", none, none⟩
    (by decide) (by decide)
